import Mathlib

/-!
Shallow embedding of the rent-house-scraper repository (two pipeline
variants: `line.py`, keyed by address, and `rent_scraper.py`, keyed by
listing name).  HTTP transport and HTML parsing are external
collaborators: a fetched page is modelled as a `Soup` holding the query
results the code actually reads (pagination anchor hrefs and listing
cards), and a page fetch is a function `Nat → Except Unit (Soup _)`
(`Except.error` models a timeout / non-2xx `FetchError`).  The JSON
library is modelled by a `Json` value type together with a parse
function parameter `String → Option Json` (`none` models
`json.JSONDecodeError`).  Machine side effects of a run (Telegram
messages, stderr diagnostics, state-file writes) are collected in the
run output structures `LineOut` / `RSOut`.
-/

/-- JSON values, the possible contents of the persisted state file. -/
inductive Json where
  | null : Json
  | bool : Bool → Json
  | num : Int → Json
  | str : String → Json
  | arr : List Json → Json
  | obj : List (String × Json) → Json

/-- Python hashability of a JSON value: containers (lists, dicts as
values) are unhashable, scalars and strings are hashable. -/
def isHashable : Json → Bool
  | .arr _ => false
  | .obj _ => false
  | _ => true

/-- Python `==` restricted to the comparisons the scraper performs: one
side is always a string or both sides are hashable JSON scalars (the
only values a `set()` built from JSON can hold).  Containers compare
unequal to scalars, exactly as in Python; container-vs-container
equality is never consulted by the code. -/
def pyEq : Json → Json → Bool
  | .null, .null => true
  | .bool x, .bool y => decide (x = y)
  | .num x, .num y => decide (x = y)
  | .str x, .str y => decide (x = y)
  | _, _ => false

/-- Python `s in seen` for a string `s` and a seen-set `seen`. -/
def pyMemStr (n : String) (l : List Json) : Bool :=
  l.any (fun j => pyEq j (Json.str n))

/-- Set insertion (first occurrence kept), modelling Python `set` construction. -/
def dedupJ (l : List Json) : List Json :=
  l.foldl (fun acc j => if acc.any (pyEq j) then acc else acc ++ [j]) []

/-- Python `set(x)` on a JSON value `x`: strings iterate their
characters, lists require hashable elements (else `TypeError`), dicts
iterate their keys; `None`, booleans and numbers are not iterable, so
`set()` raises `TypeError` (`Except.error`). -/
def pySet : Json → Except Unit (List Json)
  | .str s => .ok (dedupJ (s.toList.map (fun c => Json.str (String.mk [c]))))
  | .arr xs => if xs.all isHashable then .ok (dedupJ xs) else .error ()
  | .obj kvs => .ok (dedupJ (kvs.map (fun kv => Json.str kv.1)))
  | _ => .error ()

/-- `load_seen` of `line.py` (lines 30-34): `set(json.loads(text))`
under a catch-all `except Exception: return set()`.  An absent file
(`none`) raises inside the `try` and is caught; so is a decode error
and any `TypeError` from `set()`. -/
def load_seen_line (content : Option String) (parse : String → Option Json) : List Json :=
  match content with
  | none => []
  | some s =>
    match parse s with
    | none => []
    | some j =>
      match pySet j with
      | .ok l => l
      | .error _ => []

/-- `load_seen` of `rent_scraper.py` (lines 37-44): an absent or empty
file returns the empty set; `json.JSONDecodeError` is caught; but a
`TypeError` raised by `set()` on well-formed, ill-typed JSON is NOT
caught and propagates past the load boundary (`Except.error`). -/
def load_seen_rs (content : Option String) (parse : String → Option Json) : Except Unit (List Json) :=
  match content with
  | none => .ok []
  | some s =>
    if s = "" then .ok []
    else
      match parse s with
      | none => .ok []
      | some j => pySet j

/-- Code-point-lexicographic order on character lists, Python's string
comparison. -/
def charListLt : List Char → List Char → Bool
  | [], [] => false
  | [], _ :: _ => true
  | _ :: _, [] => false
  | a :: as, b :: bs =>
    if a.toNat < b.toNat then true
    else if b.toNat < a.toNat then false
    else charListLt as bs

/-- Python `<` on strings. -/
def strLtB (a b : String) : Bool := charListLt a.toList b.toList

/-- Insertion step of an insertion sort on strings (Python's
code-point-lexicographic string order). -/
def insortStr (x : String) : List String → List String
  | [] => [x]
  | y :: ys => if strLtB x y then x :: y :: ys else y :: insortStr x ys

/-- Python `sorted` on a list of strings. -/
def strSort (l : List String) : List String := l.foldr insortStr []

/-- Insertion step of an insertion sort on integers. -/
def insortInt (x : Int) : List Int → List Int
  | [] => [x]
  | y :: ys => if decide (x < y) then x :: y :: ys else y :: insortInt x ys

/-- Python `sorted` on a list of integers. -/
def intSort (l : List Int) : List Int := l.foldr insortInt []

/-- Checks that a seen-set holds only JSON strings and extracts them. -/
def asStrings : List Json → Option (List String)
  | [] => some []
  | Json.str s :: rest =>
    match asStrings rest with
    | some l => some (s :: l)
    | none => none
  | _ :: _ => none

/-- Checks that a seen-set holds only JSON numbers and extracts them. -/
def asNums : List Json → Option (List Int)
  | [] => some []
  | Json.num n :: rest =>
    match asNums rest with
    | some l => some (n :: l)
    | none => none
  | _ :: _ => none

/-- Python `sorted(seen)` on a seen-set: homogeneous string sets sort
lexicographically, homogeneous number sets numerically, sets of at most
one element need no comparison; otherwise comparing incomparable
elements raises `TypeError` (conservative on exotic mixes such as
booleans with numbers, which never occur in the theorems below). -/
def pySortedJson (l : List Json) : Except Unit (List Json) :=
  match asStrings l with
  | some strs => .ok ((strSort strs).map Json.str)
  | none =>
    match asNums l with
    | some ns => .ok ((intSort ns).map Json.num)
    | none => if l.length ≤ 1 then .ok l else .error ()

/-- First occurrence of each string, in first-seen order: the key set
of an insertion-ordered dict, and the content of a `set` of strings. -/
def firstKeys (l : List String) : List String :=
  l.foldl (fun acc k => if k ∈ acc then acc else acc ++ [k]) []

/-- `save_seen` of `line.py` (lines 36-37): the serialized payload is
the sorted list of the key set. -/
def save_seen_line (keys : List String) : List String :=
  strSort (firstKeys keys)

/-- `save_seen` of `rent_scraper.py` (lines 46-47): `sorted(seen)` over
the JSON seen-set. -/
def save_seen_rs (seen : List Json) : Except Unit (List Json) :=
  pySortedJson seen

/-- Literal-prefix test on character lists. -/
def litHead : List Char → List Char → Bool
  | [], _ => true
  | _ :: _, [] => false
  | a :: as, b :: bs => if a = b then litHead as bs else false

/-- Value of a digit run, as `int()` of the matched group. -/
def digitsVal (ds : List Char) : Nat :=
  ds.foldl (fun n c => 10 * n + (c.toNat - 48)) 0

/-- `re.search` for a pattern of the shape `<literal>(\d+)`: scan for
the leftmost position where the literal occurs followed by at least one
digit, and return the value of the maximal digit run there. -/
def searchLitNum (lit : List Char) : List Char → Option Nat
  | [] => none
  | c :: cs =>
    if litHead lit (c :: cs) then
      match ((c :: cs).drop lit.length).takeWhile Char.isDigit with
      | [] => searchLitNum lit cs
      | ds => some (digitsVal ds)
    else searchLitNum lit cs

/-- The characters of the pagination pattern `page=(\d+)`. -/
def pageChars : List Char := "page=".toList

/-- The characters of the detail-link pattern `/rentHouse/detail/\d+`. -/
def detailChars : List Char := "/rentHouse/detail/".toList

/-- `re.search(r"/rentHouse/detail/\d+", href)` succeeds. -/
def hasDetailHref (h : String) : Bool :=
  (searchLitNum detailChars h.toList).isSome

/-- Python `pat in s` substring test on character lists. -/
def hasSub (pat : List Char) : List Char → Bool
  | [] => pat.isEmpty
  | c :: cs => if litHead pat (c :: cs) then true else hasSub pat cs

/-- The characters of the status keyword `招租` tested by `line.py`. -/
def zhaoZu : List Char := "招租".toList

/-- One step of `get_last_page`'s loop over pagination anchors:
`a.get("href", "")` then `re.search(r"page=(\d+)", href)`, taking the
max when the search succeeds. -/
def pageStep (last : Nat) (a : Option String) : Nat :=
  match searchLitNum pageChars (a.getD "").toList with
  | some n => max last n
  | none => last

/-- `get_last_page` (identical in both files): fold the max over all
pagination anchors, starting from 1. -/
def get_last_page (anchors : List (Option String)) : Nat :=
  anchors.foldl pageStep 1

/-- The page numbers successfully pattern-matched from the anchors. -/
def pageNums (anchors : List (Option String)) : List Nat :=
  anchors.filterMap (fun a => searchLitNum pageChars (a.getD "").toList)

/-- The fixed site root `BASE_URL`. -/
def baseURL : String := "https://rent.thurc.org.taipei"

/-- A fetched page, reduced to the query results the code reads:
pagination anchor hrefs (`ul.pagination a.page-link`, `none` when the
anchor has no href attribute) and the listing cards
(`div.property-item`), whose shape depends on the variant. -/
structure Soup (α : Type) where
  pag : List (Option String)
  cards : List α
deriving DecidableEq

/-- A listing card as read by `line.py`: stripped text of
`span.location` and `span.badge-success` when those elements exist, and
the href of the `h3.title a, h5.title a` anchor when present with an
href attribute. -/
structure CardL where
  addrTag : Option String
  statusTag : Option String
  titleHref : Option String
deriving DecidableEq

/-- A listing record of `line.py`. -/
structure RecordL where
  address : String
  status : String
  url : String
deriving DecidableEq

/-- Detail URL of `line.py` (line 69): `BASE_URL + href` when the title
anchor exists with an href, else `BASE_URL`. -/
def lineUrl : Option String → String
  | some h => baseURL ++ h
  | none => baseURL

/-- The record `parse_cards` of `line.py` produces for one card, `none`
when the card is skipped: both the address element and the
green-badge element must exist, and the status text must contain
`招租`. -/
def cardRecordL (c : CardL) : Option RecordL :=
  match c.addrTag, c.statusTag with
  | some addr, some status =>
    if hasSub zhaoZu status.toList then some ⟨addr, status, lineUrl c.titleHref⟩
    else none
  | _, _ => none

/-- `parse_cards` of `line.py` (lines 53-72). -/
def parse_cards_line (cards : List CardL) : List RecordL :=
  cards.filterMap cardRecordL

/-- A listing card as read by `rent_scraper.py`: its anchors (href
attribute when present, stripped text), and stripped text of
`span.price` / `span.location` when those elements exist. -/
structure CardRS where
  anchors : List (Option String × String)
  price : Option String
  location : Option String
deriving DecidableEq

/-- A listing record of `rent_scraper.py`. -/
structure RecordRS where
  name : String
  location : String
  price : String
  url : String
deriving DecidableEq

/-- `card.find("a", href=re.compile(r"/rentHouse/detail/\d+"))`: the
first anchor having an href attribute that matches the detail
pattern. -/
def findDetailAnchor : List (Option String × String) → Option (String × String)
  | [] => none
  | (oh, t) :: rest =>
    match oh with
    | some h => if hasDetailHref h then some (h, t) else findDetailAnchor rest
    | none => findDetailAnchor rest

/-- Normalisation applied to optional display fields:
`.replace(" ", " ")` on the element text, `未知` when the element
is absent. -/
def fieldOr : Option String → String
  | some s => String.mk (s.toList.map (fun c => if c = Char.ofNat 160 then ' ' else c))
  | none => "未知"

/-- The record `parse_cards` of `rent_scraper.py` produces for one
card, `none` when no detail anchor exists. -/
def cardRecordRS (c : CardRS) : Option RecordRS :=
  match findDetailAnchor c.anchors with
  | none => none
  | some (h, t) => some ⟨t, fieldOr c.location, fieldOr c.price, baseURL ++ h⟩

/-- `parse_cards` of `rent_scraper.py` (lines 64-89). -/
def parse_cards_rs (cards : List CardRS) : List RecordRS :=
  cards.filterMap cardRecordRS

/-- Python dict assignment `d[k] = v`: replace the value at the first
entry with key `k` in place (preserving insertion order), else append. -/
def dictInsert (d : List (String × RecordL)) (k : String) (v : RecordL) : List (String × RecordL) :=
  match d with
  | [] => [(k, v)]
  | (k2, v2) :: rest =>
    if k2 = k then (k2, v) :: rest else (k2, v2) :: dictInsert rest k v

/-- The snapshot dict comprehension of `line.py` (line 95):
`{it["address"]: it for it in all_listings}`, an insertion-ordered map
with last-write-wins values. -/
def buildSnapshot (l : List RecordL) : List (String × RecordL) :=
  l.foldl (fun d r => dictInsert d r.address r) []

/-- Python `snapshot[k]` lookup. -/
def pyLookup (d : List (String × RecordL)) (k : String) : Option RecordL :=
  (d.find? (fun kv => decide (kv.1 = k))).map (·.2)

/-- `newbies` of `line.py` (line 98): the snapshot records whose key is
absent from the loaded seen-set, in dict iteration (= key insertion)
order. -/
def lineNewbies (snap : List (String × RecordL)) (seen : List Json) : List RecordL :=
  (snap.filter (fun kv => !pyMemStr kv.1 seen)).map (·.2)

/-- `newbies` of `rent_scraper.py` (line 116): computed from the raw
concatenated listing list, one entry per occurrence. -/
def rsNewbies (all : List RecordRS) (seen : List Json) : List RecordRS :=
  all.filter (fun it => !pyMemStr it.name seen)

/-- `seen_names.update(...)`: set insertion of a string name. -/
def setInsertStr (s : List Json) (n : String) : List Json :=
  if pyMemStr n s then s else s ++ [Json.str n]

/-- The seen-set persisted by `rent_scraper.py` (line 124): the loaded
set united with the names of the new listings. -/
def rsSeen2 (seen : List Json) (newbies : List RecordRS) : List Json :=
  newbies.foldl (fun s r => setInsertStr s r.name) seen

/-- `fetch_html` for pages `p, p+1, ...` (`count` many), in ascending
order, aborting on the first failure. -/
def fetchFrom {α : Type} (fetch : Nat → Except Unit (Soup α)) : Nat → Nat → Except Unit (List (Soup α))
  | _, 0 => .ok []
  | p, n + 1 =>
    match fetch p with
    | .error e => .error e
    | .ok s =>
      match fetchFrom fetch (p + 1) n with
      | .error e => .error e
      | .ok rest => .ok (s :: rest)

/-- The fetch phase of both mains: page 1 first, then pages
`2 .. get_last_page(page 1)`; any failure aborts the whole phase. -/
def fetchAll {α : Type} (fetch : Nat → Except Unit (Soup α)) : Except Unit (List (Soup α)) :=
  match fetch 1 with
  | .error e => .error e
  | .ok s1 =>
    match fetchFrom fetch 2 (get_last_page s1.pag - 1) with
    | .error e => .error e
    | .ok rest => .ok (s1 :: rest)

/-- `all_listings` of `line.py`: per-page extraction concatenated in
page order. -/
def all_records_line (soups : List (Soup CardL)) : List RecordL :=
  (soups.map (fun s => parse_cards_line s.cards)).flatten

/-- `all_listings` of `rent_scraper.py`. -/
def all_records_rs (soups : List (Soup CardRS)) : List RecordRS :=
  (soups.map (fun s => parse_cards_rs s.cards)).flatten

/-- Telegram-failure diagnostic written by `send_telegram` (both files)
when the response status is not 200. -/
def telegramFailText : String := "Telegram sendMessage failed"

/-- stderr output of one `send_telegram` call returning `st`. -/
def tgLog (st : Nat) : List String :=
  if st = 200 then [] else [telegramFailText]

/-- The per-record notification block of `line.py` (line 103). -/
def formatL (r : RecordL) : String :=
  "🏠 " ++ r.address ++ "\n🟢 " ++ r.status ++ "\n🔗 " ++ r.url

/-- The batched notification text of `line.py`: records joined by a
blank line. -/
def joinRecsL (rs : List RecordL) : String :=
  String.intercalate "\n\n" (rs.map formatL)

/-- The per-record notification block of `rent_scraper.py` (line 120). -/
def formatRS (r : RecordRS) : String :=
  "🏠 " ++ r.name ++ "\n📍 " ++ r.location ++ "\n💰 " ++ r.price ++ "\n🔗 " ++ r.url

/-- The batched notification text of `rent_scraper.py`. -/
def joinRecsRS (rs : List RecordRS) : String :=
  String.intercalate "\n\n" (rs.map formatRS)

/-- The pure data a successful `line.py` run computes. -/
structure LineData where
  listings : List RecordL
  snapshot : List (String × RecordL)
  seen : List Json
  newbies : List RecordL

/-- Observable outcome of a `line.py` run: result (or uncaught
exception), Telegram messages sent, stderr diagnostics, and the
arguments of the `save_seen` calls made. -/
structure LineOut where
  result : Except Unit LineData
  notified : List String
  stderrLogs : List String
  savedSets : List (List String)

/-- The pure data a successful `rent_scraper.py` run computes. -/
structure RSData where
  listings : List RecordRS
  seen : List Json
  newbies : List RecordRS

/-- Observable outcome of a `rent_scraper.py` run. -/
structure RSOut where
  result : Except Unit RSData
  notified : List String
  stderrLogs : List String
  savedSets : List (List Json)

/-- The `LineData` of a run over fetched pages `soups`. -/
def lineData (soups : List (Soup CardL)) (s0 : Option String) (parse : String → Option Json) : LineData :=
  ⟨all_records_line soups,
   buildSnapshot (all_records_line soups),
   load_seen_line s0 parse,
   lineNewbies (buildSnapshot (all_records_line soups)) (load_seen_line s0 parse)⟩

/-- The post-fetch phase of `main` in `line.py` (lines 94-111): build
the snapshot, load the seen-set, compute the delta, notify when the
delta is non-empty (a non-200 response only logs to stderr), and
unconditionally save the snapshot's key set. -/
def lineRun (soups : List (Soup CardL)) (s0 : Option String) (parse : String → Option Json) (st : Nat) : LineOut :=
  ⟨Except.ok (lineData soups s0 parse),
   if (lineData soups s0 parse).newbies.isEmpty then []
   else [joinRecsL (lineData soups s0 parse).newbies],
   if (lineData soups s0 parse).newbies.isEmpty then [] else tgLog st,
   [save_seen_line ((lineData soups s0 parse).snapshot.map Prod.fst)]⟩

/-- `main` of `line.py` (lines 85-111): fetch everything (any
`FetchError` aborts the run with no effects), then run the post-fetch
phase.  `st` is the HTTP status the Telegram endpoint would return. -/
def main_line (fetch : Nat → Except Unit (Soup CardL)) (s0 : Option String)
    (parse : String → Option Json) (st : Nat) : LineOut :=
  match fetchAll fetch with
  | .error e => ⟨.error e, [], [], []⟩
  | .ok soups => lineRun soups s0 parse st

/-- The post-load phase of `main` in `rent_scraper.py` (lines 114-128):
compute the delta from the raw listing list; when it is empty, neither
notify nor save; when it is non-empty, notify once, insert the new
names into the seen-set, and save it (Python `sorted` may raise on an
ill-typed set, which aborts before the write). -/
def rsAfterSeen (all : List RecordRS) (seen : List Json) (st : Nat) : RSOut :=
  if (rsNewbies all seen).isEmpty then
    ⟨Except.ok ⟨all, seen, rsNewbies all seen⟩, [], [], []⟩
  else
    match save_seen_rs (rsSeen2 seen (rsNewbies all seen)) with
    | .error e => ⟨.error e, [joinRecsRS (rsNewbies all seen)], tgLog st, []⟩
    | .ok s2 => ⟨Except.ok ⟨all, seen, rsNewbies all seen⟩, [joinRecsRS (rsNewbies all seen)], tgLog st, [s2]⟩

/-- The post-fetch phase of `main` in `rent_scraper.py`: loading the
seen-set may itself raise (ill-typed state file), aborting the run. -/
def rsRun (soups : List (Soup CardRS)) (s0 : Option String) (parse : String → Option Json) (st : Nat) : RSOut :=
  match load_seen_rs s0 parse with
  | .error e => ⟨.error e, [], [], []⟩
  | .ok seen => rsAfterSeen (all_records_rs soups) seen st

/-- `main` of `rent_scraper.py` (lines 92-128). -/
def main_rs (fetch : Nat → Except Unit (Soup CardRS)) (s0 : Option String)
    (parse : String → Option Json) (st : Nat) : RSOut :=
  match fetchAll fetch with
  | .error e => ⟨.error e, [], [], []⟩
  | .ok soups => rsRun soups s0 parse st

/-- State-file content after a `line.py` run, given an encoder for the
serialized payload: the last `save_seen` write wins; with no write the
prior content stands byte-for-byte. -/
def fileAfterL (enc : List String → String) (s0 : Option String) (o : LineOut) : Option String :=
  match o.savedSets.getLast? with
  | none => s0
  | some s => some (enc s)

/-- State-file content after a `rent_scraper.py` run. -/
def fileAfterRS (enc : List Json → String) (s0 : Option String) (o : RSOut) : Option String :=
  match o.savedSets.getLast? with
  | none => s0
  | some s => some (enc s)

/-! ## Concrete scenario inputs used by witnesses and counterexamples -/

/-- A parse function for state files that never parse (decode error). -/
def parseNone : String → Option Json := fun _ => none

/-- A parse function mapping the file content `S` to the JSON array `["A"]`. -/
def parseArrA : String → Option Json :=
  fun s => if s = "S" then some (Json.arr [Json.str "A"]) else none

/-- A parse function mapping the file content `5` to the JSON number 5. -/
def parseNum5 : String → Option Json :=
  fun s => if s = "5" then some (Json.num 5) else none

/-- A trivial serializer for line-variant state payloads. -/
def encL0 : List String → String := fun _ => ""

/-- A trivial serializer for rs-variant state payloads. -/
def encRS0 : List Json → String := fun _ => ""

/-- A card with address `A`, currently advertised. -/
def cardA : CardL := ⟨some "A", some "招租中", none⟩

/-- The record extracted from `cardA`. -/
def recA : RecordL := ⟨"A", "招租中", baseURL⟩

/-- A one-page site whose only card is `cardA`. -/
def fetchL1 : Nat → Except Unit (Soup CardL) := fun _ => Except.ok ⟨[], [cardA]⟩

/-- The run data of `main_line` on `fetchL1` with no prior state. -/
def dataA : LineData := ⟨[recA], [("A", recA)], [], [recA]⟩

/-- A card whose location element exists but has blank text. -/
def cardBlankL : CardL := ⟨some "", some "招租中", none⟩

/-- The record extracted from `cardBlankL`: its identity key is empty. -/
def recBlankL : RecordL := ⟨"", "招租中", baseURL⟩

/-- A card with a detail anchor named `B`. -/
def cardB : CardRS := ⟨[(some "/rentHouse/detail/9", "B")], none, none⟩

/-- The record extracted from `cardB`. -/
def recB : RecordRS := ⟨"B", "未知", "未知", baseURL ++ "/rentHouse/detail/9"⟩

/-- A one-page site whose only card is `cardB`. -/
def fetchRS1 : Nat → Except Unit (Soup CardRS) := fun _ => Except.ok ⟨[], [cardB]⟩

/-- The run data of `main_rs` on `fetchRS1` with prior seen-set `{"A"}`. -/
def dataB : RSData := ⟨[recB], [Json.str "A"], [recB]⟩

/-- A one-page site with no cards at all. -/
def fetchRSEmpty : Nat → Except Unit (Soup CardRS) := fun _ => Except.ok ⟨[], []⟩

/-- The run data of `main_rs` on `fetchRSEmpty`. -/
def dataEmpty : RSData := ⟨[], [], []⟩

/-- A card with a detail anchor named `N`. -/
def cardN : CardRS := ⟨[(some "/rentHouse/detail/3", "N")], none, none⟩

/-- The record extracted from `cardN`. -/
def recN : RecordRS := ⟨"N", "未知", "未知", baseURL ++ "/rentHouse/detail/3"⟩

/-- A one-page site listing the same name `N` twice. -/
def fetchRSDup : Nat → Except Unit (Soup CardRS) := fun _ => Except.ok ⟨[], [cardN, cardN]⟩

/-- The run data of `main_rs` on `fetchRSDup` with no prior state. -/
def dataDup : RSData := ⟨[recN, recN], [], [recN, recN]⟩

/-- A fetch whose every page request fails. -/
def fetchFailL : Nat → Except Unit (Soup CardL) := fun _ => Except.error ()

/-- A fetch whose every page request fails (rs variant). -/
def fetchFailRS : Nat → Except Unit (Soup CardRS) := fun _ => Except.error ()

/-- A card whose detail anchor exists but has blank text. -/
def cardBlankRS : CardRS := ⟨[(some "/rentHouse/detail/7", "")], none, none⟩

/-- The record extracted from `cardBlankRS`: its identity key is empty. -/
def recBlankRS : RecordRS := ⟨"", "未知", "未知", baseURL ++ "/rentHouse/detail/7"⟩

/-! ## Helper lemmas -/

theorem pyEq_str_iff (j : Json) (n : String) : pyEq j (Json.str n) = true ↔ j = Json.str n := by
  cases j <;> simp [pyEq]

theorem pyMemStr_iff (n : String) (l : List Json) : pyMemStr n l = true ↔ Json.str n ∈ l := by
  simp [pyMemStr, List.any_eq_true, pyEq_str_iff]

theorem mem_insortStr (x y : String) (l : List String) :
    y ∈ insortStr x l ↔ y = x ∨ y ∈ l := by
  induction l with
  | nil => simp [insortStr]
  | cons z zs ih =>
    simp only [insortStr]
    split
    · simp [List.mem_cons]
    · simp only [List.mem_cons, ih]
      tauto

theorem mem_strSort (y : String) (l : List String) : y ∈ strSort l ↔ y ∈ l := by
  induction l with
  | nil => simp [strSort]
  | cons z zs ih =>
    simp only [strSort, List.foldr_cons] at ih ⊢
    rw [mem_insortStr, ih, List.mem_cons]

theorem mem_insortInt (x y : Int) (l : List Int) :
    y ∈ insortInt x l ↔ y = x ∨ y ∈ l := by
  induction l with
  | nil => simp [insortInt]
  | cons z zs ih =>
    simp only [insortInt]
    split
    · simp [List.mem_cons]
    · simp only [List.mem_cons, ih]
      tauto

theorem mem_intSort (y : Int) (l : List Int) : y ∈ intSort l ↔ y ∈ l := by
  induction l with
  | nil => simp [intSort]
  | cons z zs ih =>
    simp only [intSort, List.foldr_cons] at ih ⊢
    rw [mem_insortInt, ih, List.mem_cons]

theorem asStrings_eq : ∀ (l : List Json) (s : List String),
    asStrings l = some s → l = s.map Json.str := by
  intro l
  induction l with
  | nil =>
    intro s h
    simp [asStrings] at h
    simp [← h]
  | cons j rest ih =>
    intro s h
    cases j <;> simp only [asStrings] at h <;> try exact absurd h (by simp)
    case str x =>
      cases hr : asStrings rest with
      | none => rw [hr] at h; exact absurd h (by simp)
      | some l2 =>
        rw [hr] at h
        simp only [Option.some.injEq] at h
        subst h
        simp [ih l2 hr]

theorem asNums_eq : ∀ (l : List Json) (s : List Int),
    asNums l = some s → l = s.map Json.num := by
  intro l
  induction l with
  | nil =>
    intro s h
    simp [asNums] at h
    simp [← h]
  | cons j rest ih =>
    intro s h
    cases j <;> simp only [asNums] at h <;> try exact absurd h (by simp)
    case num x =>
      cases hr : asNums rest with
      | none => rw [hr] at h; exact absurd h (by simp)
      | some l2 =>
        rw [hr] at h
        simp only [Option.some.injEq] at h
        subst h
        simp [ih l2 hr]

theorem mem_pySortedJson (l s : List Json) (h : pySortedJson l = Except.ok s) (j : Json) :
    j ∈ s ↔ j ∈ l := by
  cases hs : asStrings l with
  | some strs =>
    simp only [pySortedJson, hs] at h
    simp only [Except.ok.injEq] at h
    subst h
    rw [asStrings_eq l strs hs]
    simp [List.mem_map, mem_strSort]
  | none =>
    cases hn : asNums l with
    | some ns =>
      simp only [pySortedJson, hs, hn] at h
      simp only [Except.ok.injEq] at h
      subst h
      rw [asNums_eq l ns hn]
      simp [List.mem_map, mem_intSort]
    | none =>
      simp only [pySortedJson, hs, hn] at h
      split at h
      · simp only [Except.ok.injEq] at h
        subst h
        rfl
      · exact absurd h (by simp)

theorem mem_firstKeys_aux (k : String) :
    ∀ (l : List String) (acc : List String),
      k ∈ l.foldl (fun acc k => if k ∈ acc then acc else acc ++ [k]) acc ↔ k ∈ acc ∨ k ∈ l := by
  intro l
  induction l with
  | nil => simp
  | cons a l ih =>
    intro acc
    simp only [List.foldl_cons, ih, List.mem_cons]
    by_cases ha : a ∈ acc
    · simp only [if_pos ha]
      constructor
      · tauto
      · rintro (h | rfl | h) <;> tauto
    · simp only [if_neg ha, List.mem_append, List.mem_singleton]
      tauto

theorem mem_firstKeys (l : List String) (k : String) : k ∈ firstKeys l ↔ k ∈ l := by
  unfold firstKeys
  rw [mem_firstKeys_aux]
  simp

theorem mem_save_seen_line (keys : List String) (k : String) :
    k ∈ save_seen_line keys ↔ k ∈ keys := by
  unfold save_seen_line
  rw [mem_strSort, mem_firstKeys]

theorem dictInsert_mem (d : List (String × RecordL)) (a : String) (v : RecordL)
    (kv : String × RecordL) (h : kv ∈ dictInsert d a v) : kv ∈ d ∨ kv = (a, v) := by
  induction d with
  | nil =>
    simp [dictInsert] at h
    right
    exact h
  | cons p rest ih =>
    obtain ⟨k2, v2⟩ := p
    simp only [dictInsert] at h
    split at h
    next heq =>
      subst heq
      rcases List.mem_cons.mp h with h2 | h2
      · right
        exact h2
      · left
        exact List.mem_cons_of_mem _ h2
    next hne =>
      rcases List.mem_cons.mp h with h2 | h2
      · left
        exact h2 ▸ List.mem_cons_self _ _
      · rcases ih h2 with h3 | h3
        · left
          exact List.mem_cons_of_mem _ h3
        · right
          exact h3

theorem buildSnapshot_addr_aux :
    ∀ (l : List RecordL) (acc : List (String × RecordL)),
      (∀ kv ∈ acc, (kv : String × RecordL).2.address = kv.1) →
      ∀ kv ∈ l.foldl (fun d r => dictInsert d r.address r) acc, kv.2.address = kv.1 := by
  intro l
  induction l with
  | nil =>
    intro acc hacc kv h
    exact hacc kv h
  | cons r l ih =>
    intro acc hacc kv h
    simp only [List.foldl_cons] at h
    refine ih (dictInsert acc r.address r) ?_ kv h
    intro kv2 h2
    rcases dictInsert_mem _ _ _ _ h2 with h3 | h3
    · exact hacc kv2 h3
    · rw [h3]

theorem buildSnapshot_addr (l : List RecordL) :
    ∀ kv ∈ buildSnapshot l, (kv : String × RecordL).2.address = kv.1 :=
  buildSnapshot_addr_aux l [] (by intro kv h; simp at h)

theorem dictInsert_keys (d : List (String × RecordL)) (a : String) (v : RecordL) :
    (dictInsert d a v).map Prod.fst =
      if a ∈ d.map Prod.fst then d.map Prod.fst else d.map Prod.fst ++ [a] := by
  induction d with
  | nil => simp [dictInsert]
  | cons p rest ih =>
    obtain ⟨k2, v2⟩ := p
    simp only [dictInsert]
    split
    next heq =>
      subst heq
      simp
    next hne =>
      simp only [List.map_cons, List.mem_cons]
      have : ¬ a = k2 := fun h => hne h.symm
      by_cases hm : a ∈ rest.map Prod.fst
      · simp [ih, hm, this]
      · simp [ih, hm, this]

theorem buildSnapshot_keys_aux :
    ∀ (l : List RecordL) (acc : List (String × RecordL)),
      ((l.foldl (fun d r => dictInsert d r.address r) acc).map Prod.fst) =
        (l.map RecordL.address).foldl (fun ks k => if k ∈ ks then ks else ks ++ [k]) (acc.map Prod.fst) := by
  intro l
  induction l with
  | nil => intro acc; simp
  | cons r l ih =>
    intro acc
    simp only [List.foldl_cons, List.map_cons]
    rw [ih, dictInsert_keys]

theorem buildSnapshot_keys (l : List RecordL) :
    (buildSnapshot l).map Prod.fst = firstKeys (l.map RecordL.address) := by
  unfold buildSnapshot firstKeys
  rw [buildSnapshot_keys_aux]
  simp

theorem pyLookup_cons (k2 : String) (v2 : RecordL) (rest : List (String × RecordL)) (k : String) :
    pyLookup ((k2, v2) :: rest) k = if k = k2 then some v2 else pyLookup rest k := by
  by_cases h : k = k2
  · subst h
    simp [pyLookup, List.find?]
  · have hd : (decide (k2 = k)) = false := by
      simp
      exact fun hh => h (Eq.symm hh)
    simp [pyLookup, List.find?, hd, h]

theorem lookup_dictInsert (d : List (String × RecordL)) (a : String) (v : RecordL) (k : String) :
    pyLookup (dictInsert d a v) k = if k = a then some v else pyLookup d k := by
  induction d with
  | nil =>
    simp [dictInsert, pyLookup_cons]
  | cons p rest ih =>
    obtain ⟨k2, v2⟩ := p
    simp only [dictInsert]
    split
    next heq =>
      subst heq
      rw [pyLookup_cons, pyLookup_cons]
      by_cases h : k = k2 <;> simp [h]
    next hne =>
      have hne2 : ¬ a = k2 := fun hh => hne (Eq.symm hh)
      rw [pyLookup_cons, ih, pyLookup_cons]
      by_cases h1 : k = k2 <;> by_cases h2 : k = a
      · exfalso
        exact hne (h1.symm.trans h2)
      · simp [h1, h2, hne, hne2]
      · simp [h1, h2, hne, hne2]
      · simp [h1, h2]

theorem buildSnapshot_append (l : List RecordL) (r : RecordL) :
    buildSnapshot (l ++ [r]) = dictInsert (buildSnapshot l) r.address r := by
  simp [buildSnapshot, List.foldl_append]

theorem lookup_buildSnapshot (l : List RecordL) (k : String) :
    pyLookup (buildSnapshot l) k = l.reverse.find? (fun r => decide (r.address = k)) := by
  induction l using List.reverseRecOn with
  | nil => simp [buildSnapshot, pyLookup, List.find?]
  | append_singleton l r ih =>
    rw [buildSnapshot_append, lookup_dictInsert, List.reverse_append]
    simp only [List.reverse_singleton, List.singleton_append, List.find?]
    by_cases h : k = r.address
    · simp [h]
    · have hd : (decide (r.address = k)) = false := by
        simp
        exact fun hh => h (Eq.symm hh)
      rw [hd]
      simp only [cond_false, if_neg h]
      exact ih

theorem lineNewbies_keys (snap : List (String × RecordL)) (seen : List Json)
    (hinv : ∀ kv ∈ snap, (kv : String × RecordL).2.address = kv.1) :
    (lineNewbies snap seen).map RecordL.address =
      (snap.map Prod.fst).filter (fun k => !pyMemStr k seen) := by
  induction snap with
  | nil => simp [lineNewbies]
  | cons kv rest ih =>
    have hhead : kv.2.address = kv.1 := hinv kv (List.mem_cons_self _ _)
    have hrest : ∀ p ∈ rest, (p : String × RecordL).2.address = p.1 :=
      fun p hp => hinv p (List.mem_cons_of_mem _ hp)
    simp only [lineNewbies, List.map_cons, List.filter] at ih ⊢
    cases hp : !pyMemStr kv.1 seen with
    | true => simp [hp, hhead, ih hrest]
    | false => simp [hp, ih hrest]

theorem pyMemStr_setInsertStr (n m : String) (s : List Json) :
    pyMemStr n (setInsertStr s m) = (pyMemStr n s || decide (m = n)) := by
  unfold setInsertStr
  split
  next h =>
    by_cases hm : m = n
    · subst hm
      simp [h]
    · simp [hm]
  next h =>
    simp [pyMemStr, List.any_append, pyEq]

theorem pyMemStr_rsSeen2 (n : String) (newbies : List RecordRS) :
    ∀ (seen : List Json),
      pyMemStr n (rsSeen2 seen newbies) =
        (pyMemStr n seen || newbies.any (fun r => decide (r.name = n))) := by
  induction newbies with
  | nil => intro seen; simp [rsSeen2]
  | cons r l ih =>
    intro seen
    simp only [rsSeen2, List.foldl_cons] at ih ⊢
    rw [ih, pyMemStr_setInsertStr]
    simp [Bool.or_assoc]

theorem countP_filter_of_imp (l : List RecordRS) (p q : RecordRS → Bool)
    (h : ∀ x, p x = true → q x = true) : (l.filter q).countP p = l.countP p := by
  induction l with
  | nil => simp
  | cons a l ih =>
    simp only [List.filter_cons, List.countP_cons]
    cases hq : q a with
    | true =>
      simp [hq, List.countP_cons, ih]
    | false =>
      have hp : p a = false := by
        cases hpa : p a with
        | true => exact absurd (h a hpa) (by simp [hq])
        | false => rfl
      simp [hp, ih]

theorem countP_filter_zero (l : List RecordRS) (p q : RecordRS → Bool)
    (h : ∀ x, p x = true → q x = false) : (l.filter q).countP p = 0 := by
  induction l with
  | nil => simp
  | cons a l ih =>
    simp only [List.filter_cons]
    cases hq : q a with
    | true =>
      have hp : p a = false := by
        cases hpa : p a with
        | true => exact absurd (h a hpa) (by simp [hq])
        | false => rfl
      simp [hp, ih]
    | false =>
      simp [ih]

theorem foldl_pageStep (l : List (Option String)) :
    ∀ i : Nat, l.foldl pageStep i = (pageNums l).foldl max i := by
  induction l with
  | nil => intro i; simp [pageNums]
  | cons a l ih =>
    intro i
    simp only [List.foldl_cons, pageNums, List.filterMap_cons] at ih ⊢
    cases h : searchLitNum pageChars (a.getD "").toList with
    | none =>
      simp only [String.toList] at h
      simp [pageStep, h, ih]
    | some n =>
      simp only [String.toList] at h
      simp [pageStep, h, ih]

theorem le_foldl_max (ns : List Nat) : ∀ i : Nat, i ≤ ns.foldl max i := by
  induction ns with
  | nil => intro i; simp
  | cons n ns ih =>
    intro i
    exact le_trans (Nat.le_max_left i n) (ih (max i n))

theorem mem_le_foldl_max (ns : List Nat) : ∀ (i n : Nat), n ∈ ns → n ≤ ns.foldl max i := by
  induction ns with
  | nil => intro i n h; simp at h
  | cons m ns ih =>
    intro i n h
    rcases List.mem_cons.mp h with rfl | h2
    · exact le_trans (Nat.le_max_right i n) (le_foldl_max ns (max i n))
    · exact ih (max i m) n h2

theorem foldl_max_eq_or_mem (ns : List Nat) :
    ∀ i : Nat, ns.foldl max i = i ∨ ns.foldl max i ∈ ns := by
  induction ns with
  | nil => intro i; left; rfl
  | cons m ns ih =>
    intro i
    simp only [List.foldl_cons]
    rcases ih (max i m) with h | h
    · rcases Nat.le_total i m with hle | hle
      · right
        rw [h, Nat.max_eq_right hle]
        exact List.mem_cons_self _ _
      · left
        rw [h, Nat.max_eq_left hle]
    · right
      exact List.mem_cons_of_mem _ h

theorem main_line_ok {f : Nat → Except Unit (Soup CardL)} {s0 : Option String}
    {parse : String → Option Json} {st : Nat} {d : LineData}
    (h : (main_line f s0 parse st).result = Except.ok d) :
    ∃ soups, fetchAll f = Except.ok soups ∧
      main_line f s0 parse st = lineRun soups s0 parse st ∧
      d = lineData soups s0 parse := by
  cases hf : fetchAll f with
  | error e =>
    unfold main_line at h
    rw [hf] at h
    simp at h
  | ok soups =>
    refine ⟨soups, rfl, ?_, ?_⟩
    · unfold main_line
      rw [hf]
    · unfold main_line at h
      rw [hf] at h
      simp only [lineRun] at h
      exact (Except.ok.injEq _ _ ▸ h).symm

theorem main_rs_ok {f : Nat → Except Unit (Soup CardRS)} {s0 : Option String}
    {parse : String → Option Json} {st : Nat} {d : RSData}
    (h : (main_rs f s0 parse st).result = Except.ok d) :
    load_seen_rs s0 parse = Except.ok d.seen ∧
    d.newbies = rsNewbies d.listings d.seen ∧
    (d.newbies.isEmpty = true →
      (main_rs f s0 parse st).notified = [] ∧ (main_rs f s0 parse st).savedSets = []) ∧
    (d.newbies.isEmpty = false →
      ∃ s2, save_seen_rs (rsSeen2 d.seen d.newbies) = Except.ok s2 ∧
        (main_rs f s0 parse st).savedSets = [s2] ∧
        (main_rs f s0 parse st).notified = [joinRecsRS d.newbies] ∧
        (main_rs f s0 parse st).stderrLogs = tgLog st) := by
  cases hf : fetchAll f with
  | error e =>
    unfold main_rs at h
    rw [hf] at h
    simp at h
  | ok soups =>
    have hm : main_rs f s0 parse st = rsRun soups s0 parse st := by
      unfold main_rs
      rw [hf]
    rw [hm] at h ⊢
    cases hl : load_seen_rs s0 parse with
    | error e =>
      unfold rsRun at h
      rw [hl] at h
      simp at h
    | ok seen =>
      have hr : rsRun soups s0 parse st = rsAfterSeen (all_records_rs soups) seen st := by
        unfold rsRun
        rw [hl]
      rw [hr] at h ⊢
      cases hne : (rsNewbies (all_records_rs soups) seen).isEmpty with
      | true =>
        have ho : rsAfterSeen (all_records_rs soups) seen st =
            ⟨Except.ok ⟨all_records_rs soups, seen, rsNewbies (all_records_rs soups) seen⟩,
             [], [], []⟩ := by
          unfold rsAfterSeen
          rw [hne]
          simp
        rw [ho] at h ⊢
        simp only [Except.ok.injEq] at h
        subst h
        refine ⟨rfl, rfl, fun _ => ⟨rfl, rfl⟩, fun hc => ?_⟩
        rw [hne] at hc
        cases hc
      | false =>
        cases hs : save_seen_rs (rsSeen2 seen (rsNewbies (all_records_rs soups) seen)) with
        | error e =>
          have ho : rsAfterSeen (all_records_rs soups) seen st =
              ⟨Except.error e, [joinRecsRS (rsNewbies (all_records_rs soups) seen)], tgLog st, []⟩ := by
            unfold rsAfterSeen
            rw [hne, hs]
            simp
          rw [ho] at h
          simp at h
        | ok s2 =>
          have ho : rsAfterSeen (all_records_rs soups) seen st =
              ⟨Except.ok ⟨all_records_rs soups, seen, rsNewbies (all_records_rs soups) seen⟩,
               [joinRecsRS (rsNewbies (all_records_rs soups) seen)], tgLog st, [s2]⟩ := by
            unfold rsAfterSeen
            rw [hne, hs]
            simp
          rw [ho] at h ⊢
          simp only [Except.ok.injEq] at h
          subst h
          refine ⟨rfl, rfl, fun hc => ?_, fun _ => ⟨s2, hs, rfl, rfl, rfl⟩⟩
          rw [hne] at hc
          cases hc

/-! ## Claim theorems -/

/-- C1: for every run that completes all page fetches, and for every
identity key in the run's snapshot, that key's record is in the delta
iff the key was absent from the seen-set loaded at run start — stated
for the address variant over its snapshot, and for the name variant
over the keys occurring in its listing sequence. -/
theorem delta_exactness :
    (∀ (f : Nat → Except Unit (Soup CardL)) (s0 : Option String)
       (parse : String → Option Json) (st : Nat) (d : LineData),
       (main_line f s0 parse st).result = Except.ok d →
       ∀ k r, (k, r) ∈ d.snapshot → (r ∈ d.newbies ↔ pyMemStr k d.seen = false)) ∧
    (∀ (f : Nat → Except Unit (Soup CardRS)) (s0 : Option String)
       (parse : String → Option Json) (st : Nat) (d : RSData),
       (main_rs f s0 parse st).result = Except.ok d →
       ∀ n, (∃ r ∈ d.newbies, r.name = n) ↔
         ((∃ r ∈ d.listings, r.name = n) ∧ pyMemStr n d.seen = false)) := by
  constructor
  · intro f s0 parse st d h
    obtain ⟨soups, hf, hrun, hd⟩ := main_line_ok h
    subst hd
    intro k r hmem
    simp only [lineData] at hmem ⊢
    have haddr : r.address = k := buildSnapshot_addr _ (k, r) hmem
    constructor
    · intro hr
      simp only [lineNewbies] at hr
      obtain ⟨kv, hkv, hkv2⟩ := List.mem_map.mp hr
      have hkvf := List.mem_filter.mp hkv
      have hkvaddr : kv.2.address = kv.1 := buildSnapshot_addr _ kv hkvf.1
      have hk1 : kv.1 = k := by
        rw [← hkvaddr, hkv2, haddr]
      have hp := hkvf.2
      rw [hk1] at hp
      simpa using hp
    · intro hns
      simp only [lineNewbies]
      refine List.mem_map.mpr ⟨(k, r), List.mem_filter.mpr ⟨hmem, ?_⟩, rfl⟩
      simp [hns]
  · intro f s0 parse st d h
    obtain ⟨hl, hnb, hemp, hnemp⟩ := main_rs_ok h
    intro n
    rw [hnb]
    unfold rsNewbies
    constructor
    · rintro ⟨r, hr, rfl⟩
      have hrf := List.mem_filter.mp hr
      refine ⟨⟨r, hrf.1, rfl⟩, ?_⟩
      have := hrf.2
      simpa using this
    · rintro ⟨⟨r, hr, rfl⟩, hn⟩
      refine ⟨r, List.mem_filter.mpr ⟨hr, ?_⟩, rfl⟩
      simp [hn]

/-- C1 witness: both one-card runs with no matching prior state,
instantiated at keys `A` and `B`. -/
theorem delta_exactness_app :
    (recA ∈ dataA.newbies ↔ pyMemStr "A" dataA.seen = false) ∧
    ((∃ r ∈ dataB.newbies, r.name = "B") ↔
      ((∃ r ∈ dataB.listings, r.name = "B") ∧ pyMemStr "B" dataB.seen = false)) :=
  ⟨delta_exactness.1 fetchL1 none parseNone 200 dataA rfl "A" recA (by simp [dataA]),
   delta_exactness.2 fetchRS1 (some "S") parseArrA 200 dataB rfl "B"⟩

/-- C2 counterexample: a run of `main_rs` in which every page fetch
succeeds and the delta is empty performs no save call at all, so the
claim that every successful run saves exactly once is false on the
name-variant pipeline. -/
theorem rs_empty_delta_skips_save :
    (main_rs fetchRSEmpty none parseNone 200).result = Except.ok dataEmpty ∧
    (main_rs fetchRSEmpty none parseNone 200).savedSets = [] :=
  ⟨rfl, rfl⟩

/-- C2 amended: on every successful run the address variant
(`line.py`) calls save exactly once, even when the delta is empty; the
name variant (`rent_scraper.py`) calls save exactly once when the
delta is non-empty and zero times when the delta is empty. -/
theorem save_call_policy :
    (∀ (f : Nat → Except Unit (Soup CardL)) (s0 : Option String)
       (parse : String → Option Json) (st : Nat) (d : LineData),
       (main_line f s0 parse st).result = Except.ok d →
       (main_line f s0 parse st).savedSets.length = 1) ∧
    (∀ (f : Nat → Except Unit (Soup CardRS)) (s0 : Option String)
       (parse : String → Option Json) (st : Nat) (d : RSData),
       (main_rs f s0 parse st).result = Except.ok d →
       (main_rs f s0 parse st).savedSets.length = (if d.newbies.isEmpty then 0 else 1)) := by
  constructor
  · intro f s0 parse st d h
    obtain ⟨soups, hf, hrun, hd⟩ := main_line_ok h
    rw [hrun]
    rfl
  · intro f s0 parse st d h
    obtain ⟨hl, hnb, hemp, hnemp⟩ := main_rs_ok h
    cases hne : d.newbies.isEmpty with
    | true =>
      rw [(hemp hne).2]
      simp
    | false =>
      obtain ⟨s2, _, hsv, _, _⟩ := hnemp hne
      rw [hsv]
      simp

/-- C2 witness: one save call on a line run with a non-empty delta, and
zero save calls on an rs run with an empty delta. -/
theorem save_call_policy_app :
    (main_line fetchL1 none parseNone 200).savedSets.length = 1 ∧
    (main_rs fetchRSEmpty none parseNone 404).savedSets.length = 0 := by
  constructor
  · exact save_call_policy.1 fetchL1 none parseNone 200 dataA rfl
  · have h2 := save_call_policy.2 fetchRSEmpty none parseNone 404 dataEmpty rfl
    simpa [dataEmpty] using h2

/-- C3 counterexample: `main_rs` persists the union of the previous
seen-set with the new names, so the stale key `A` (present in the prior
seen-set, absent from the current crawl, whose only listing is `B`)
appears in the newly persisted seen-set, contradicting the claim that
the persisted set equals the current snapshot's key set. -/
theorem rs_persist_keeps_stale_key :
    (main_rs fetchRS1 (some "S") parseArrA 200).result = Except.ok dataB ∧
    (main_rs fetchRS1 (some "S") parseArrA 200).savedSets = [[Json.str "A", Json.str "B"]] ∧
    dataB.listings.map RecordRS.name = ["B"] ∧
    "A" ∉ dataB.listings.map RecordRS.name :=
  ⟨rfl, rfl, rfl, by decide⟩

/-- C3 amended: the address variant persists exactly the snapshot's key
set, and no key absent from the snapshot ever enters the delta; the
name variant persists the union of the loaded seen-set with the delta's
names (so stale keys survive), and its delta likewise only contains
currently-listed names. -/
theorem persisted_keys_policy :
    (∀ (f : Nat → Except Unit (Soup CardL)) (s0 : Option String)
       (parse : String → Option Json) (st : Nat) (d : LineData),
       (main_line f s0 parse st).result = Except.ok d →
       ∃ s, (main_line f s0 parse st).savedSets = [s] ∧
         (∀ k, k ∈ s ↔ k ∈ d.snapshot.map Prod.fst) ∧
         (∀ r ∈ d.newbies, r.address ∈ d.snapshot.map Prod.fst)) ∧
    (∀ (f : Nat → Except Unit (Soup CardRS)) (s0 : Option String)
       (parse : String → Option Json) (st : Nat) (d : RSData),
       (main_rs f s0 parse st).result = Except.ok d →
       d.newbies.isEmpty = false →
       ∃ s, (main_rs f s0 parse st).savedSets = [s] ∧
         (∀ n, Json.str n ∈ s ↔ (pyMemStr n d.seen = true ∨ ∃ r ∈ d.newbies, r.name = n)) ∧
         (∀ r ∈ d.newbies, r.name ∈ d.listings.map RecordRS.name)) := by
  constructor
  · intro f s0 parse st d h
    obtain ⟨soups, hf, hrun, hd⟩ := main_line_ok h
    rw [hrun]
    subst hd
    refine ⟨_, rfl, ?_, ?_⟩
    · intro k
      exact mem_save_seen_line _ k
    · intro r hr
      simp only [lineData, lineNewbies] at hr ⊢
      obtain ⟨kv, hkv, hkv2⟩ := List.mem_map.mp hr
      have hkvf := List.mem_filter.mp hkv
      have hkvaddr : kv.2.address = kv.1 := buildSnapshot_addr _ kv hkvf.1
      rw [← hkv2, hkvaddr]
      exact List.mem_map.mpr ⟨kv, hkvf.1, rfl⟩
  · intro f s0 parse st d h hne
    obtain ⟨hl, hnb, hemp, hnemp⟩ := main_rs_ok h
    obtain ⟨s2, hsave, hsv, hnot, herr⟩ := hnemp hne
    refine ⟨s2, hsv, ?_, ?_⟩
    · intro n
      have hmem := mem_pySortedJson _ _ hsave (Json.str n)
      rw [hmem, ← pyMemStr_iff, pyMemStr_rsSeen2]
      simp only [Bool.or_eq_true, List.any_eq_true, decide_eq_true_eq]
    · intro r hr
      rw [hnb] at hr
      unfold rsNewbies at hr
      exact List.mem_map.mpr ⟨r, (List.mem_filter.mp hr).1, rfl⟩

/-- C3 witness: both parts instantiated, the line part on `fetchL1` and
the rs part on the stale-key scenario. -/
theorem persisted_keys_policy_app :
    (∃ s, (main_line fetchL1 none parseNone 200).savedSets = [s] ∧
      (∀ k, k ∈ s ↔ k ∈ dataA.snapshot.map Prod.fst) ∧
      (∀ r ∈ dataA.newbies, r.address ∈ dataA.snapshot.map Prod.fst)) ∧
    (∃ s, (main_rs fetchRS1 (some "S") parseArrA 200).savedSets = [s] ∧
      (∀ n, Json.str n ∈ s ↔ (pyMemStr n dataB.seen = true ∨ ∃ r ∈ dataB.newbies, r.name = n)) ∧
      (∀ r ∈ dataB.newbies, r.name ∈ dataB.listings.map RecordRS.name)) :=
  ⟨persisted_keys_policy.1 fetchL1 none parseNone 200 dataA rfl,
   persisted_keys_policy.2 fetchRS1 (some "S") parseArrA 200 dataB rfl rfl⟩

/-- C4: if any page fetch fails (timeout or non-2xx, including
page 1), either variant's run aborts: the state-file content after the
run is exactly the content before it (no save call is made), and no
notification call is made. -/
theorem fetch_fail_atomicity :
    (∀ (f : Nat → Except Unit (Soup CardL)) (s0 : Option String)
       (parse : String → Option Json) (st : Nat) (enc : List String → String) (e : Unit),
       fetchAll f = Except.error e →
       fileAfterL enc s0 (main_line f s0 parse st) = s0 ∧
       (main_line f s0 parse st).notified = [] ∧
       (main_line f s0 parse st).savedSets = []) ∧
    (∀ (f : Nat → Except Unit (Soup CardRS)) (s0 : Option String)
       (parse : String → Option Json) (st : Nat) (enc : List Json → String) (e : Unit),
       fetchAll f = Except.error e →
       fileAfterRS enc s0 (main_rs f s0 parse st) = s0 ∧
       (main_rs f s0 parse st).notified = [] ∧
       (main_rs f s0 parse st).savedSets = []) := by
  constructor
  · intro f s0 parse st enc e h
    have hm : main_line f s0 parse st = ⟨Except.error e, [], [], []⟩ := by
      unfold main_line
      rw [h]
    rw [hm]
    exact ⟨rfl, rfl, rfl⟩
  · intro f s0 parse st enc e h
    have hm : main_rs f s0 parse st = ⟨Except.error e, [], [], []⟩ := by
      unfold main_rs
      rw [h]
    rw [hm]
    exact ⟨rfl, rfl, rfl⟩

/-- C4 witness: the always-failing fetches leave the absent state file
absent and send nothing, in both variants. -/
theorem fetch_fail_atomicity_app :
    (fileAfterL encL0 (some "old") (main_line fetchFailL (some "old") parseNone 200) = some "old" ∧
     (main_line fetchFailL (some "old") parseNone 200).notified = []) ∧
    (fileAfterRS encRS0 (some "old") (main_rs fetchFailRS (some "old") parseNone 200) = some "old" ∧
     (main_rs fetchFailRS (some "old") parseNone 200).notified = []) := by
  constructor
  · have h := fetch_fail_atomicity.1 fetchFailL (some "old") parseNone 200 encL0 () rfl
    exact ⟨h.1, h.2.1⟩
  · have h := fetch_fail_atomicity.2 fetchFailRS (some "old") parseNone 200 encRS0 () rfl
    exact ⟨h.1, h.2.1⟩

/-- C5 counterexample: the name-variant `load_seen` only catches JSON
decode errors, so on a state file whose content is the well-formed JSON
number `5`, `set(json.loads(...))` raises `TypeError` past the load
boundary instead of returning an empty set. -/
theorem rs_load_raises_on_number_state :
    load_seen_rs (some "5") parseNum5 = Except.error () :=
  rfl

/-- C5 amended: the address variant's loader is total and returns the
empty set whenever the file is absent, fails to parse, or `set()`
raises; the name variant's loader returns the empty set when the file
is absent, empty, or fails to decode, but can raise on well-formed
ill-typed JSON. -/
theorem load_soft_fail_policy :
    (∀ parse, load_seen_line none parse = []) ∧
    (∀ s parse, parse s = none → load_seen_line (some s) parse = []) ∧
    (∀ s parse j, parse s = some j → pySet j = Except.error () →
       load_seen_line (some s) parse = []) ∧
    (∀ s parse j l, parse s = some j → pySet j = Except.ok l →
       load_seen_line (some s) parse = l) ∧
    (∀ parse, load_seen_rs none parse = Except.ok []) ∧
    (∀ parse, load_seen_rs (some "") parse = Except.ok []) ∧
    (∀ s parse, s ≠ "" → parse s = none → load_seen_rs (some s) parse = Except.ok []) := by
  refine ⟨fun parse => rfl, ?_, ?_, ?_, fun parse => rfl, fun parse => rfl, ?_⟩
  · intro s parse h
    simp [load_seen_line, h]
  · intro s parse j h1 h2
    simp [load_seen_line, h1, h2]
  · intro s parse j l h1 h2
    simp [load_seen_line, h1, h2]
  · intro s parse h1 h2
    simp [load_seen_rs, h1, h2]

/-- C5 witness: the address variant returns the empty set on the very
content that makes the name variant raise, and the name variant soft
fails on an undecodable file. -/
theorem load_soft_fail_policy_app :
    load_seen_line (some "5") parseNum5 = [] ∧
    load_seen_rs (some "x") parseNone = Except.ok [] :=
  ⟨load_soft_fail_policy.2.2.1 "5" parseNum5 (Json.num 5) rfl rfl,
   load_soft_fail_policy.2.2.2.2.2.2 "x" parseNone (by decide) rfl⟩

/-- C6 counterexample: a card whose identity element is present but has
blank text is NOT skipped: both extractors emit a record whose identity
key is the empty string, and the address variant's snapshot then
contains the empty key. -/
theorem blank_identity_not_skipped :
    parse_cards_line [cardBlankL] = [recBlankL] ∧
    recBlankL.address = "" ∧
    buildSnapshot (parse_cards_line [cardBlankL]) = [("", recBlankL)] ∧
    parse_cards_rs [cardBlankRS] = [recBlankRS] ∧
    recBlankRS.name = "" :=
  ⟨rfl, rfl, rfl, rfl, rfl⟩

theorem cardRecordL_eq (c : CardL) (r : RecordL) (h : cardRecordL c = some r) :
    c.addrTag = some r.address ∧ c.statusTag = some r.status := by
  obtain ⟨oa, os, ot⟩ := c
  cases oa with
  | none => simp [cardRecordL] at h
  | some addr =>
    cases os with
    | none => simp [cardRecordL] at h
    | some status =>
      simp only [cardRecordL] at h
      split at h
      · simp only [Option.some.injEq] at h
        subst h
        exact ⟨rfl, rfl⟩
      · simp at h

theorem cardRecordRS_eq (c : CardRS) (r : RecordRS) (h : cardRecordRS c = some r) :
    ∃ hh, findDetailAnchor c.anchors = some (hh, r.name) := by
  obtain ⟨an, pr, lo⟩ := c
  simp only [cardRecordRS] at h
  cases hf : findDetailAnchor an with
  | none =>
    rw [hf] at h
    simp at h
  | some ht =>
    obtain ⟨hh, t⟩ := ht
    rw [hf] at h
    simp only [Option.some.injEq] at h
    subst h
    exact ⟨hh, rfl⟩

/-- C6 amended: every extracted record comes from a card whose identity
element is present (a card with a missing identity element is skipped
in both variants); blank identity text is not filtered. -/
theorem missing_identity_skipped :
    (∀ (cards : List CardL) (r : RecordL), r ∈ parse_cards_line cards →
       ∃ c ∈ cards, c.addrTag = some r.address ∧ c.statusTag = some r.status) ∧
    (∀ (cards : List CardRS) (r : RecordRS), r ∈ parse_cards_rs cards →
       ∃ c ∈ cards, ∃ h, findDetailAnchor c.anchors = some (h, r.name)) := by
  constructor
  · intro cards r hr
    obtain ⟨c, hc, hcr⟩ := List.mem_filterMap.mp hr
    exact ⟨c, hc, cardRecordL_eq c r hcr⟩
  · intro cards r hr
    obtain ⟨c, hc, hcr⟩ := List.mem_filterMap.mp hr
    exact ⟨c, hc, cardRecordRS_eq c r hcr⟩

/-- C6 witness: a record extracted from a fully populated card indeed
points back to a card carrying its identity fields. -/
theorem missing_identity_skipped_app :
    (∃ c ∈ [cardA], c.addrTag = some recA.address ∧ c.statusTag = some recA.status) ∧
    (∃ c ∈ [cardB], ∃ h, findDetailAnchor c.anchors = some (h, recB.name)) :=
  ⟨missing_identity_skipped.1 [cardA] recA (by decide),
   missing_identity_skipped.2 [cardB] recB (by decide)⟩

/-- C7: in the address variant the snapshot maps each key to the
most-recently-extracted record with that key when pages are folded in
ascending order (last occurrence wins), and the delta lists its records
in first-seen key order across the crawl. -/
theorem snapshot_lww_delta_order (f : Nat → Except Unit (Soup CardL)) (s0 : Option String)
    (parse : String → Option Json) (st : Nat) (d : LineData)
    (h : (main_line f s0 parse st).result = Except.ok d) :
    (∀ k, pyLookup d.snapshot k = d.listings.reverse.find? (fun r => decide (r.address = k))) ∧
    d.snapshot.map Prod.fst = firstKeys (d.listings.map RecordL.address) ∧
    d.newbies.map RecordL.address =
      (firstKeys (d.listings.map RecordL.address)).filter (fun k => !pyMemStr k d.seen) := by
  obtain ⟨soups, hf, hrun, hd⟩ := main_line_ok h
  subst hd
  simp only [lineData]
  refine ⟨fun k => lookup_buildSnapshot _ k, buildSnapshot_keys _, ?_⟩
  rw [← buildSnapshot_keys]
  exact lineNewbies_keys _ _ (buildSnapshot_addr _)

/-- C7 witness: the one-card run, with the lookup conjunct instantiated
at key `A`. -/
theorem snapshot_lww_delta_order_app :
    pyLookup dataA.snapshot "A" = dataA.listings.reverse.find? (fun r => decide (r.address = "A")) ∧
    dataA.snapshot.map Prod.fst = firstKeys (dataA.listings.map RecordL.address) ∧
    dataA.newbies.map RecordL.address =
      (firstKeys (dataA.listings.map RecordL.address)).filter (fun k => !pyMemStr k dataA.seen) := by
  obtain ⟨h1, h2, h3⟩ := snapshot_lww_delta_order fetchL1 none parseNone 200 dataA rfl
  exact ⟨h1 "A", h2, h3⟩

/-- C8 counterexample: on a pagination anchor with href `page=0` the
matched page numbers are exactly `[0]`, yet `get_last_page` returns 1,
so it does not return the maximum page number pattern-matched from the
anchors' hrefs. -/
theorem get_last_page_zero_href :
    pageNums [some "page=0"] = [0] ∧ get_last_page [some "page=0"] ≠ 0 :=
  ⟨rfl, by decide⟩

/-- C8 amended: `get_last_page` never fails, always returns at least 1,
returns 1 when no anchor's href matches the page pattern, bounds every
matched page number from above, and equals the maximum of 1 and the
matched page numbers (it is 1 or one of them). -/
theorem get_last_page_bounds (anchors : List (Option String)) :
    1 ≤ get_last_page anchors ∧
    (pageNums anchors = [] → get_last_page anchors = 1) ∧
    (∀ n ∈ pageNums anchors, n ≤ get_last_page anchors) ∧
    (get_last_page anchors = 1 ∨ get_last_page anchors ∈ pageNums anchors) := by
  unfold get_last_page
  rw [foldl_pageStep]
  refine ⟨le_foldl_max _ 1, ?_, fun n hn => mem_le_foldl_max _ 1 n hn, foldl_max_eq_or_mem _ 1⟩
  intro h
  rw [h]
  rfl

/-- C8 witness: on the single matching anchor `page=3` the returned
value dominates the matched number 3. -/
theorem get_last_page_bounds_app :
    3 ≤ get_last_page [some "page=3"] ∧ get_last_page [some "page=3"] = 3 :=
  ⟨(get_last_page_bounds [some "page=3"]).2.2.1 3 (by decide), by decide⟩

/-- C9: when the delta is non-empty and the notification endpoint
answers with a status other than 200, both variants write the failure
to stderr and still perform their save call — a notification failure
never prevents the save step. -/
theorem notify_failure_does_not_block_save (st : Nat) (hst : st ≠ 200) :
    (∀ (f : Nat → Except Unit (Soup CardL)) (s0 : Option String)
       (parse : String → Option Json) (d : LineData),
       (main_line f s0 parse st).result = Except.ok d →
       d.newbies.isEmpty = false →
       (main_line f s0 parse st).stderrLogs = [telegramFailText] ∧
       (main_line f s0 parse st).savedSets.length = 1) ∧
    (∀ (f : Nat → Except Unit (Soup CardRS)) (s0 : Option String)
       (parse : String → Option Json) (d : RSData),
       (main_rs f s0 parse st).result = Except.ok d →
       d.newbies.isEmpty = false →
       (main_rs f s0 parse st).stderrLogs = [telegramFailText] ∧
       (main_rs f s0 parse st).savedSets.length = 1) := by
  constructor
  · intro f s0 parse d h hne
    obtain ⟨soups, hf, hrun, hd⟩ := main_line_ok h
    rw [hrun]
    subst hd
    constructor
    · simp only [lineRun]
      rw [hne]
      simp [tgLog, hst]
    · rfl
  · intro f s0 parse d h hne
    obtain ⟨hl, hnb, hemp, hnemp⟩ := main_rs_ok h
    obtain ⟨s2, hsave, hsv, hnot, herr⟩ := hnemp hne
    rw [herr, hsv]
    exact ⟨by simp [tgLog, hst], rfl⟩

/-- C9 witness: with endpoint status 404 both one-card runs log the
failure and still save once. -/
theorem notify_failure_does_not_block_save_app :
    ((main_line fetchL1 none parseNone 404).stderrLogs = [telegramFailText] ∧
     (main_line fetchL1 none parseNone 404).savedSets.length = 1) ∧
    ((main_rs fetchRS1 (some "S") parseArrA 404).stderrLogs = [telegramFailText] ∧
     (main_rs fetchRS1 (some "S") parseArrA 404).savedSets.length = 1) :=
  ⟨(notify_failure_does_not_block_save 404 (by decide)).1 fetchL1 none parseNone dataA rfl rfl,
   (notify_failure_does_not_block_save 404 (by decide)).2 fetchRS1 (some "S") parseArrA dataB rfl rfl⟩

/-- C10: in the name variant the delta is computed from the raw
concatenated listing sequence, one entry per occurrence of an unseen
name (and none for seen names), and the whole delta is dispatched in at
most one notification message. -/
theorem rs_delta_per_occurrence (f : Nat → Except Unit (Soup CardRS)) (s0 : Option String)
    (parse : String → Option Json) (st : Nat) (d : RSData)
    (h : (main_rs f s0 parse st).result = Except.ok d) :
    (∀ n, pyMemStr n d.seen = false →
       d.newbies.countP (fun r => decide (r.name = n)) =
         d.listings.countP (fun r => decide (r.name = n))) ∧
    (∀ n, pyMemStr n d.seen = true →
       d.newbies.countP (fun r => decide (r.name = n)) = 0) ∧
    (main_rs f s0 parse st).notified.length ≤ 1 := by
  obtain ⟨hl, hnb, hemp, hnemp⟩ := main_rs_ok h
  refine ⟨?_, ?_, ?_⟩
  · intro n hn
    rw [hnb]
    unfold rsNewbies
    apply countP_filter_of_imp
    intro x hx
    have hxn : x.name = n := of_decide_eq_true hx
    simp [hxn, hn]
  · intro n hn
    rw [hnb]
    unfold rsNewbies
    apply countP_filter_zero
    intro x hx
    have hxn : x.name = n := of_decide_eq_true hx
    simp [hxn, hn]
  · cases hne : d.newbies.isEmpty with
    | true =>
      rw [(hemp hne).1]
      simp
    | false =>
      obtain ⟨s2, _, _, hnot, _⟩ := hnemp hne
      rw [hnot]
      simp

/-- C10 witness: the duplicate-name run produces two delta entries for
the single unseen name `N` while sending at most one message. -/
theorem rs_delta_per_occurrence_app :
    dataDup.newbies.countP (fun r => decide (r.name = "N")) =
      dataDup.listings.countP (fun r => decide (r.name = "N")) ∧
    dataDup.listings.countP (fun r => decide (r.name = "N")) = 2 ∧
    (main_rs fetchRSDup none parseNone 200).notified.length ≤ 1 := by
  obtain ⟨h1, h2, h3⟩ := rs_delta_per_occurrence fetchRSDup none parseNone 200 dataDup rfl
  exact ⟨h1 "N" rfl, by decide, h3⟩
